import Mathlib

/-!
Verification of the df-network client networking layer.

Shallow embedding of the core subsystems of the repository:
the throttled concurrent queue (src/dist/ThrottledConcurrentQueue.js),
the transaction executor (src/dist/TxExecutor.js), the contract caller
(src/dist/ContractCaller.js), the gas price oracle client
(src/unnamed/part_000, originally xDaiApi), the gas setting helpers and
bulk getter (src/dist/Network.js), and the connection manager registry
(src/dist/EthConnection.js).

Machine integers and JS numbers are modelled as Nat, Int and Rat; JS
`undefined` as Option; timestamps as Nat milliseconds.  Every definition
is translated from the source under src/, not from the spec.
-/

/- ===================== Throttled concurrent queue ===================== -/

/-- Constructor parameters of ThrottledConcurrentQueue
(src/dist/ThrottledConcurrentQueue.js, constructor). -/
structure TCQParams where
  maxInvocationsPerInterval : Nat
  invocationIntervalMs : Nat
  maxConcurrency : Nat
deriving DecidableEq, Repr

/-- Mutable state of a ThrottledConcurrentQueue.  `taskQueue` is the number of
queued, not yet started tasks; `executionTimestamps` is the circular buffer of
task start timestamps, oldest first; `concurrency` is the number of in-flight
tasks; `time` is the current clock value; `starts` is the (ghost) chronological
list of every task start timestamp ever recorded. -/
structure TCQState where
  time : Nat
  taskQueue : Nat
  executionTimestamps : List Nat
  concurrency : Nat
  starts : List Nat
deriving DecidableEq, Repr

/-- The loop guard of deleteOutdatedExecutionTimestamps:
`oldestInvocation && oldestInvocation < now - invocationIntervalMs`.
In JS a timestamp of 0 is falsy and stops the loop, hence the `0 < ts` guard;
`ts < now - w` over real numbers is `ts + w < now`. -/
def isOutdated (w now ts : Nat) : Bool :=
  decide (0 < ts) && decide (ts + w < now)

/-- deleteOutdatedExecutionTimestamps: shift timestamps off the front of the
ring while the oldest one is outdated (src/dist/ThrottledConcurrentQueue.js). -/
def deleteOutdatedExecutionTimestamps (w now : Nat) (ring : List Nat) : List Nat :=
  ring.dropWhile (isOutdated w now)

/-- throttleQuotaRemaining: ring capacity minus ring size. -/
def throttleQuotaRemaining (p : TCQParams) (ring : List Nat) : Nat :=
  p.maxInvocationsPerInterval - ring.length

/-- concurrencyQuotaRemaining: maxConcurrency minus current concurrency. -/
def concurrencyQuotaRemaining (p : TCQParams) (conc : Nat) : Nat :=
  p.maxConcurrency - conc

/-- One scheduling tick of executeNextTasks at clock value `now`: prune the
ring, compute `tasksToExecute = min(throttleQuotaRemaining,
concurrencyQuotaRemaining, taskQueue.length)`, and start that many tasks,
recording `now` in the ring and in the ghost start list
(src/dist/ThrottledConcurrentQueue.js, executeNextTasks and next). -/
def executeNextTasks (p : TCQParams) (s : TCQState) (now : Nat) : TCQState :=
  let ring := deleteOutdatedExecutionTimestamps p.invocationIntervalMs now s.executionTimestamps
  let batch := min (throttleQuotaRemaining p ring)
      (min (concurrencyQuotaRemaining p s.concurrency) s.taskQueue)
  { time := now
    taskQueue := s.taskQueue - batch
    executionTimestamps := ring ++ List.replicate batch now
    concurrency := s.concurrency + batch
    starts := s.starts ++ List.replicate batch now }

/-- nextPossibleExecution: `undefined` when the ring is empty (or its oldest
entry is the falsy timestamp 0) or the concurrency quota is exhausted;
otherwise `Date.now() - oldestExecution + invocationIntervalMs`
(src/dist/ThrottledConcurrentQueue.js, nextPossibleExecution). -/
def nextPossibleExecution (p : TCQParams) (s : TCQState) (now : Nat) : Option Int :=
  match s.executionTimestamps.head? with
  | none => none
  | some oldestExecution =>
    if oldestExecution = 0 then none
    else if concurrencyQuotaRemaining p s.concurrency = 0 then none
    else some ((now : Int) - (oldestExecution : Int) + (p.invocationIntervalMs : Int))

/-- Events of an execution trace of the queue: a call to add, a scheduling
tick occurring `delta` ms after the previous event, and a task completion
(which decrements the concurrency counter). -/
inductive TCQEvent where
  | add
  | tick (delta : Nat)
  | taskComplete
deriving DecidableEq, Repr

/-- One step of the queue under a trace event.  `add` enqueues a task
(the deferred scheduling attempt is a later `tick` event); `tick d` runs
executeNextTasks at the current time advanced by `d`; `taskComplete`
decrements the concurrency counter (the chained rescheduling is again a later
`tick` event). -/
def stepTCQ (p : TCQParams) (s : TCQState) (e : TCQEvent) : TCQState :=
  match e with
  | .add => { s with taskQueue := s.taskQueue + 1 }
  | .tick d => executeNextTasks p s (s.time + d)
  | .taskComplete => { s with concurrency := s.concurrency - 1 }

/-- Run a trace of events from a state. -/
def runTCQ (p : TCQParams) (s : TCQState) (evts : List TCQEvent) : TCQState :=
  evts.foldl (stepTCQ p) s

/-- A freshly constructed queue at clock value `t0`. -/
def initTCQState (t0 : Nat) : TCQState :=
  { time := t0, taskQueue := 0, executionTimestamps := [], concurrency := 0, starts := [] }

/-- Membership of a timestamp in the closed sliding window `[a, a + w]`. -/
def inWindow (a w ts : Nat) : Bool :=
  decide (a ≤ ts) && decide (ts ≤ a + w)

/-- Number of task starts whose timestamp lies in the window `[a, a + w]`. -/
def startsInWindow (a w : Nat) (starts : List Nat) : Nat :=
  starts.countP (inWindow a w)

/-- Invariant tying the ring to the ghost start list: the ring never exceeds
its capacity, the start list is the pruned-away prefix (all genuinely stale)
followed by the ring, and every sliding window of length
`invocationIntervalMs` contains at most `maxInvocationsPerInterval` starts. -/
def RingInv (p : TCQParams) (s : TCQState) : Prop :=
  s.executionTimestamps.length ≤ p.maxInvocationsPerInterval ∧
  (∃ dropped, s.starts = dropped ++ s.executionTimestamps ∧
      ∀ ts ∈ dropped, ts + p.invocationIntervalMs < s.time) ∧
  (∀ a, startsInWindow a p.invocationIntervalMs s.starts ≤ p.maxInvocationsPerInterval)

/- ===================== Transaction executor ===================== -/

/-- TxExecutor.TX_SUBMIT_TIMEOUT (src/dist/TxExecutor.js). -/
def TX_SUBMIT_TIMEOUT : Nat := 30000

/-- TxExecutor.NONCE_STALE_AFTER_MS (src/dist/TxExecutor.js). -/
def NONCE_STALE_AFTER_MS : Nat := 5000

/-- Nonce state of a TxExecutor: `nonce` is `undefined` until known,
`lastTransactionTimestamp` is the time of the last successful submission
(initialized to the construction time). -/
structure ExecutorState where
  nonce : Option Nat
  lastTransactionTimestamp : Nat
deriving DecidableEq, Repr

/-- The staleness test `Date.now() - this.lastTransactionTimestamp >
NONCE_STALE_AFTER_MS` of maybeUpdateNonce, over integers. -/
def nonceIsStale (s : ExecutorState) (now : Nat) : Bool :=
  decide ((NONCE_STALE_AFTER_MS : Int) < (now : Int) - (s.lastTransactionTimestamp : Int))

/-- maybeUpdateNonce: when the nonce is unknown or stale, fetch the nonce from
the chain (`fetchedNonce` is the result of `ethConnection.getNonce()`) and
adopt it when defined (src/dist/TxExecutor.js, maybeUpdateNonce). -/
def maybeUpdateNonce (s : ExecutorState) (now : Nat) (fetchedNonce : Option Nat) :
    ExecutorState :=
  if s.nonce = none ∨ nonceIsStale s now then
    match fetchedNonce with
    | some n => { s with nonce := some n }
    | none => s
  else s

/-- The four callbacks of a queued transaction. -/
inductive TxCallback where
  | onSubmissionError
  | onReceiptError
  | onTransactionResponse
  | onTransactionReceipt
deriving DecidableEq, Repr

/-- Outcome of the detached `ethConnection.waitForTransaction` wait. -/
inductive WaitOutcome where
  | confirmed (status : Nat)
  | waitFailed
deriving DecidableEq, Repr

/-- Environment-determined outcome of one run of TxExecutor.execute:
either the submission attempt fails (an RPC error, a thrown pre-hook, or the
TX_SUBMIT_TIMEOUT timeout) before a response arrives, or it is submitted at
`timeSubmitted` and the detached receipt wait later has outcome `wait`. -/
inductive TxOutcome where
  | submitFailed
  | submitted (timeSubmitted : Nat) (wait : WaitOutcome)
deriving DecidableEq, Repr

/-- The observable result of one run of TxExecutor.execute: the executor state
after the run, the queued-transaction callbacks fired (in order), and the
nonce attached to the submission when a submission happened. -/
structure ExecuteResult where
  state : ExecutorState
  fired : List TxCallback
  submittedNonce : Option (Option Nat)
deriving DecidableEq, Repr

/-- TxExecutor.execute (src/dist/TxExecutor.js).  First maybeUpdateNonce runs.
On a submission failure the catch block sees `time_submitted` unset and fires
only onSubmissionError.  On success the transaction is submitted carrying the
current nonce, the nonce is incremented when defined,
`lastTransactionTimestamp` is set to the submission time,
onTransactionResponse fires, and the detached wait later fires
onTransactionReceipt on a receipt (any status) or onReceiptError on a wait
failure. -/
def execute (s : ExecutorState) (now : Nat) (fetchedNonce : Option Nat)
    (outcome : TxOutcome) : ExecuteResult :=
  let s1 := maybeUpdateNonce s now fetchedNonce
  match outcome with
  | .submitFailed =>
    { state := s1, fired := [.onSubmissionError], submittedNonce := none }
  | .submitted t wait =>
    { state := { nonce := s1.nonce.map (· + 1), lastTransactionTimestamp := t }
      fired := .onTransactionResponse ::
        (match wait with
         | .confirmed _ => [.onTransactionReceipt]
         | .waitFailed => [.onReceiptError])
      submittedNonce := some s1.nonce }

/-- Transaction overrides consumed by the executor
(gasPrice in wei, gasLimit). -/
structure TxOverrides where
  gasPrice : Option Int
  gasLimit : Option Nat
deriving DecidableEq, Repr

/-- The gas price resolution step of TxExecutor.queueTransaction: when
`overrides.gasPrice` is `undefined`, write the automatically selected gas
price (already converted to wei) into the overrides object; otherwise leave
the object untouched (src/dist/TxExecutor.js, queueTransaction). -/
def resolveGasPrice (overrides : TxOverrides) (autoGasPriceWei : Int) : TxOverrides :=
  if overrides.gasPrice = none then { overrides with gasPrice := some autoGasPriceWei }
  else overrides

/-- The data of a queued transaction relevant to gas price resolution. -/
structure QueuedTxRequest where
  actionId : String
  methodName : String
  overrides : TxOverrides
deriving DecidableEq, Repr

/-- TxExecutor.queueTransaction, restricted to its gas price handling: the
request enqueued on the internal queue carries the caller-supplied overrides
object, mutated in place by resolveGasPrice before the enqueue. -/
def queueTransaction (actionId methodName : String) (overrides : TxOverrides)
    (autoGasPriceWei : Int) : QueuedTxRequest :=
  { actionId := actionId
    methodName := methodName
    overrides := resolveGasPrice overrides autoGasPriceWei }

/- ===================== Contract caller ===================== -/

/-- Observable counters of a ContractCaller: `queueAdds` counts every task
ever passed to `this.queue.add`, `totalCalls` is the diagnostics counter
bumped at the top of each attempt. -/
structure CallerState where
  queueAdds : Nat
  totalCalls : Nat
deriving DecidableEq, Repr

/-- One attempt of the p-retry callback inside ContractCaller.makeCall
(src/dist/ContractCaller.js, makeCall).  The body bumps the totalCalls
diagnostic, records `this.queue.size()` twice, and awaits
`contractViewFunction(...args)` directly; it never calls `this.queue.add`,
so `queueAdds` is unchanged.  `outcome` is the result of the view call. -/
def makeCallAttempt (st : CallerState) (outcome : Except String α) :
    CallerState × Except String α :=
  ({ st with totalCalls := st.totalCalls + 1 }, outcome)

/-- The p-retry loop with `retries` retries remaining: run the attempt; on
success stop, on failure retry until the retry budget is exhausted, then fail
with the last error. -/
def pRetry (outcomes : Nat → Except String α) :
    Nat → CallerState → Nat → CallerState × Except String α
  | retries, st, attemptIdx =>
    match makeCallAttempt st (outcomes attemptIdx), retries with
    | (st1, .ok v), _ => (st1, .ok v)
    | (st1, .error e), 0 => (st1, .error e)
    | (st1, .error _), n + 1 => pRetry outcomes n st1 (attemptIdx + 1)

/-- ContractCaller.makeCall: wrap the attempt in p-retry with
`{retries: maxRetries}` (src/dist/ContractCaller.js, makeCall).
`outcomes i` is the result of the i-th execution of the view function. -/
def makeCall (outcomes : Nat → Except String α) (maxRetries : Nat)
    (st : CallerState) : CallerState × Except String α :=
  pRetry outcomes maxRetries st 0

/- ===================== Gas price oracle client ===================== -/

/-- Sanitized gas prices, all numbers measured in gwei. -/
structure GasPrices where
  slow : ℚ
  average : ℚ
  fast : ℚ
deriving DecidableEq, Repr

/-- A field of the raw JSON oracle response: either a JSON number or
anything that fails the `typeof x === 'number'` test (missing, string, ...).
JSON numbers are always finite. -/
inductive JSField where
  | num (value : ℚ)
  | other
deriving DecidableEq, Repr

/-- Raw JSON oracle response. -/
structure RawGasPrices where
  slow : JSField
  average : JSField
  fast : JSField
deriving DecidableEq, Repr

/-- The per-field substitution of cleanGasPrices: a field that is not a number
is replaced by its default (src/unnamed/part_000, cleanGasPrices). -/
def substituteField (v : JSField) (defaultValue : ℚ) : ℚ :=
  match v with
  | .num q => q
  | .other => defaultValue

/-- The per-field clamp of cleanGasPrices:
`Math.max(1, Math.min(MAX_AUTO_GAS_PRICE_GWEI, x))`. -/
def clampGwei (maxAutoGasPriceGwei x : ℚ) : ℚ :=
  max 1 (min maxAutoGasPriceGwei x)

/-- cleanGasPrices (src/unnamed/part_000): independently substitute and then
clamp each of the three fields.  The defaults and the clamp ceiling are the
constants DEFAULT_GAS_PRICES and MAX_AUTO_GAS_PRICE_GWEI imported from an
external package, passed here as parameters. -/
def cleanGasPrices (defaults : GasPrices) (maxGwei : ℚ) (raw : RawGasPrices) : GasPrices :=
  { slow := clampGwei maxGwei (substituteField raw.slow defaults.slow)
    average := clampGwei maxGwei (substituteField raw.average defaults.average)
    fast := clampGwei maxGwei (substituteField raw.fast defaults.fast) }

/-- getAutoGasPrices (src/unnamed/part_000): `response` is `none` on any
network or parse failure (the catch block returns the defaults); on success
the parsed body is cleaned and returned. -/
def getAutoGasPrices (defaults : GasPrices) (maxGwei : ℚ)
    (response : Option RawGasPrices) : GasPrices :=
  match response with
  | none => defaults
  | some raw => cleanGasPrices defaults maxGwei raw

/- ===================== Gas setting selection ===================== -/

/-- Classification of a JS number as needed by parseFloat and
getAutoGasPriceGwei. -/
inductive JSNum where
  | nan
  | posInf
  | negInf
  | finite (value : ℚ)
deriving DecidableEq, Repr

/-- JS StrWhiteSpace characters skipped by parseFloat (the ones relevant
here). -/
def isJsWhite (c : Char) : Bool :=
  decide (c = ' ') || decide (c = '\t') || decide (c = '\n') || decide (c = '\r')

/-- Value of a digit string read left to right. -/
def digitsToNat (ds : List Char) : Nat :=
  ds.foldl (fun acc c => 10 * acc + (c.toNat - 48)) 0

/-- The exponent part of a decimal literal: an optional sign and digits; when
no digits follow, the exponent marker is not part of the literal and
contributes a factor of one. -/
def readExponent (cs : List Char) : Int :=
  let signed : Bool × List Char :=
    match cs with
    | '-' :: rest => (true, rest)
    | '+' :: rest => (false, rest)
    | _ => (false, cs)
  let ds := signed.2.takeWhile Char.isDigit
  if ds.isEmpty then 0
  else if signed.1 then -(digitsToNat ds : Int) else (digitsToNat ds : Int)

/-- ECMAScript parseFloat on a character list: skip whitespace, read an
optional sign, then either the literal `Infinity` or the longest decimal
literal prefix (digits, optional fraction, optional exponent); `NaN` when no
literal can be read. -/
def parseFloatChars (cs : List Char) : JSNum :=
  let cs1 := cs.dropWhile isJsWhite
  let signed : Bool × List Char :=
    match cs1 with
    | '-' :: rest => (true, rest)
    | '+' :: rest => (false, rest)
    | _ => (false, cs1)
  let neg := signed.1
  let cs2 := signed.2
  if ("Infinity".data).isPrefixOf cs2 then
    if neg then JSNum.negInf else JSNum.posInf
  else
    let intDigits := cs2.takeWhile Char.isDigit
    let r1 := cs2.dropWhile Char.isDigit
    let fracDigits :=
      match r1 with
      | '.' :: rest => rest.takeWhile Char.isDigit
      | _ => []
    let r2 :=
      match r1 with
      | '.' :: rest => rest.dropWhile Char.isDigit
      | _ => r1
    if intDigits.isEmpty && fracDigits.isEmpty then JSNum.nan
    else
      let base : ℚ :=
        (digitsToNat intDigits : ℚ) + (digitsToNat fracDigits : ℚ) / ((10 : ℚ) ^ fracDigits.length)
      let e : Int :=
        match r2 with
        | 'e' :: rest => readExponent rest
        | 'E' :: rest => readExponent rest
        | _ => 0
      JSNum.finite ((if neg then -base else base) * (10 : ℚ) ^ e)

/-- JS parseFloat. -/
def parseFloat (s : String) : JSNum :=
  parseFloatChars s.data

/-- getGasSettingGwei (src/dist/Network.js): the switch over the three
AutoGasSetting string values, `undefined` otherwise. -/
def getGasSettingGwei (setting : String) (gasPrices : GasPrices) : Option ℚ :=
  if setting = "Slow" then some gasPrices.slow
  else if setting = "Average" then some gasPrices.average
  else if setting = "Fast" then some gasPrices.fast
  else none

/-- EthConnection.getAutoGasPriceGwei (src/dist/EthConnection.js): return the
matching auto tier when the setting is one of the three auto choices;
otherwise return `parseFloat(setting)` whenever it is not NaN
(the `!isNaN(parsedSetting)` test); otherwise return the average price. -/
def getAutoGasPriceGwei (gasPrices : GasPrices) (gasPriceSetting : String) : JSNum :=
  match getGasSettingGwei gasPriceSetting gasPrices with
  | some autoPrice => JSNum.finite autoPrice
  | none =>
    if parseFloat gasPriceSetting = JSNum.nan then JSNum.finite gasPrices.average
    else parseFloat gasPriceSetting

/-- Claim C8 as stated: outside the three auto settings the parsed value is
returned exactly when it is finite, and in all remaining cases (including a
parse to positive or negative infinity) the average price is returned. -/
def C8ClaimStatement (gasPrices : GasPrices) (setting : String) : Prop :=
  getAutoGasPriceGwei gasPrices setting =
    (if setting = "Slow" then JSNum.finite gasPrices.slow
     else if setting = "Average" then JSNum.finite gasPrices.average
     else if setting = "Fast" then JSNum.finite gasPrices.fast
     else
       match parseFloat setting with
       | JSNum.finite q => JSNum.finite q
       | _ => JSNum.finite gasPrices.average)

/- ===================== Bulk getter ===================== -/

/-- Number of loop iterations of `for (i = 0; i < total / querySize; i += 1)`
for positive `querySize`: the ceiling of total / querySize. -/
def numChunks (total querySize : Nat) : Nat :=
  (total + querySize - 1) / querySize

/-- One chunk body of aggregateBulkGetter (src/dist/Network.js): the while
loop keeps calling `getterFn(start, end)` until the result is non-empty; with
a pure getter the first call decides the loop, and an empty result means the
loop never terminates, modelled as `none`.  After the call the progress
counter advances by the chunk width and `onProgress(loadedSoFar / total)` is
invoked.  `runBulkChunks` processes the chunks of `indices` in order,
returning the per-chunk results and the fractions passed to onProgress. -/
def runBulkChunks (getterFn : Nat → Nat → List α) (total querySize : Nat) :
    Nat → List Nat → Option (List α × List ℚ)
  | _, [] => some ([], [])
  | loadedSoFar, i :: rest =>
    let start := i * querySize
    let stop := min ((i + 1) * querySize) total
    let res := getterFn start stop
    if res.isEmpty then none
    else
      let loaded1 := loadedSoFar + (stop - start)
      match runBulkChunks getterFn total querySize loaded1 rest with
      | some (acc, calls) => some (res ++ acc, ((loaded1 : ℚ) / (total : ℚ)) :: calls)
      | none => none

/-- aggregateBulkGetter (src/dist/Network.js): partition `[0, total)` into
numChunks chunks, run every chunk, flatten the per-chunk results in index
order, and finish with the guaranteed `onProgress(1)` call.  The returned
pair is (flattened results, the arguments of every onProgress call);
`none` marks the diverging run in which some chunk keeps returning an empty
batch forever. -/
def aggregateBulkGetter (total querySize : Nat) (getterFn : Nat → Nat → List α) :
    Option (List α × List ℚ) :=
  match runBulkChunks getterFn total querySize 0 (List.range (numChunks total querySize)) with
  | some (flat, calls) => some (flat, calls ++ [1])
  | none => none

/- ===================== Connection manager registry ===================== -/

/-- A live contract handle, recording the address, the provider it was built
against, and the signer it carries.  This is the observable content of the
handle produced by a contract loader. -/
structure EthContract where
  address : String
  providerUrl : String
  signerKey : Option String
deriving DecidableEq, Repr

/-- A contract loader `(address, provider, signer?) -> contract-handle`. -/
def ContractLoader : Type :=
  String → String → Option String → EthContract

/-- Lookup in a JS Map modelled as an association list. -/
def mapGet (m : List (String × β)) (k : String) : Option β :=
  match m with
  | [] => none
  | (k0, v0) :: rest => if k0 = k then some v0 else mapGet rest k

/-- `Map.set`: replace the value under an existing key, or append a new
entry. -/
def mapSet (m : List (String × β)) (k : String) (v : β) : List (String × β) :=
  match m with
  | [] => [(k, v)]
  | (k0, v0) :: rest => if k0 = k then (k0, v) :: rest else (k0, v0) :: mapSet rest k v

/-- Connection manager state: the current provider (by its URL), the optional
signer, the contract registry, the loader registry, and the publications on
the rpcChanged stream. -/
structure EthConnectionState where
  providerUrl : String
  signer : Option String
  contracts : List (String × EthContract)
  loaders : List (String × ContractLoader)
  rpcEvents : List String

/-- The loop body of EthConnection.reloadContracts: invoke the stored loader
with `(address, this.provider, this.signer)` and store the handle. -/
def reloadStep (providerUrl : String) (signer : Option String)
    (acc : List (String × EthContract)) (entry : String × ContractLoader) :
    List (String × EthContract) :=
  mapSet acc entry.1 (entry.2 entry.1 providerUrl signer)

/-- EthConnection.reloadContracts (src/dist/EthConnection.js): for every
registered loader, invoke it against the current provider and signer and
store the handle. -/
def reloadContracts (s : EthConnectionState) : EthConnectionState :=
  { s with contracts := List.foldl (reloadStep s.providerUrl s.signer) s.contracts s.loaders }

/-- EthConnection.loadContract: store the loader, invoke it against the
current provider and signer, store and return the handle. -/
def loadContract (s : EthConnectionState) (address : String) (loader : ContractLoader) :
    EthConnectionState × EthContract :=
  let contract := loader address s.providerUrl s.signer
  ({ s with
      loaders := mapSet s.loaders address loader
      contracts := mapSet s.contracts address contract },
   contract)

/-- EthConnection.setRpcUrl (src/dist/EthConnection.js): build the new
provider, reload the contracts (note: `this.provider` is still the previous
provider at that point), publish the new URL on the rpcChanged stream, and
only then replace the provider reference. -/
def setRpcUrl (s : EthConnectionState) (rpcUrl : String) : EthConnectionState :=
  let newProviderUrl := rpcUrl
  let s1 := reloadContracts s
  { s1 with
      rpcEvents := s1.rpcEvents ++ [newProviderUrl]
      providerUrl := newProviderUrl }

/- ===================== Theorems ===================== -/

/- Helper lemmas (shared). -/

theorem countP_replicate_eq (pr : α → Bool) (n : Nat) (x : α) :
    (List.replicate n x).countP pr = if pr x then n else 0 := by
  induction n with
  | zero => simp
  | succ n ih => simp [List.replicate_succ, List.countP_cons, ih]; split <;> simp

theorem inWindow_iff {a w ts : Nat} : inWindow a w ts = true ↔ a ≤ ts ∧ ts ≤ a + w := by
  simp [inWindow]

theorem isOutdated_iff {w now ts : Nat} :
    isOutdated w now ts = true ↔ 0 < ts ∧ ts + w < now := by
  simp [isOutdated]

/-- Restoring the ring invariant after pruning the ring at time `now` and
pushing `batch` task starts at `now`, for any `batch` within the remaining
throttle quota.  The scheduling tick is an instance of this. -/
theorem ringInv_push (p : TCQParams) (s : TCQState) (now q c batch : Nat)
    (hnow : s.time ≤ now) (h : RingInv p s)
    (hbatch : batch ≤ p.maxInvocationsPerInterval -
      (deleteOutdatedExecutionTimestamps p.invocationIntervalMs now
        s.executionTimestamps).length) :
    RingInv p
      { time := now
        taskQueue := q
        executionTimestamps :=
          deleteOutdatedExecutionTimestamps p.invocationIntervalMs now s.executionTimestamps ++
            List.replicate batch now
        concurrency := c
        starts := s.starts ++ List.replicate batch now } := by
  obtain ⟨h1, ⟨dropped, hsplit, hstale⟩, h3⟩ := h
  have hk : s.executionTimestamps.takeWhile (isOutdated p.invocationIntervalMs now) ++
      deleteOutdatedExecutionTimestamps p.invocationIntervalMs now s.executionTimestamps =
      s.executionTimestamps :=
    List.takeWhile_append_dropWhile _ _
  have hkeptR :
      (deleteOutdatedExecutionTimestamps p.invocationIntervalMs now
        s.executionTimestamps).length ≤ p.maxInvocationsPerInterval :=
    le_trans ((List.dropWhile_sublist _).length_le) h1
  have hremStale : ∀ ts ∈ s.executionTimestamps.takeWhile (isOutdated p.invocationIntervalMs now),
      0 < ts ∧ ts + p.invocationIntervalMs < now :=
    fun ts hts => isOutdated_iff.mp (List.mem_takeWhile_imp hts)
  refine ⟨?_, ⟨dropped ++ s.executionTimestamps.takeWhile (isOutdated p.invocationIntervalMs now),
      ?_, ?_⟩, ?_⟩
  · simp only [List.length_append, List.length_replicate]
    omega
  · show s.starts ++ List.replicate batch now = _
    rw [hsplit]
    conv_lhs => rw [← hk]
    simp [List.append_assoc]
  · intro ts hts
    rcases List.mem_append.mp hts with hmem | hmem
    · exact lt_of_lt_of_le (hstale ts hmem) hnow
    · exact (hremStale ts hmem).2
  · intro a
    show startsInWindow a p.invocationIntervalMs (s.starts ++ List.replicate batch now) ≤ _
    unfold startsInWindow
    by_cases hwin : inWindow a p.invocationIntervalMs now = true
    · obtain ⟨haw1, haw2⟩ := inWindow_iff.mp hwin
      have hd0 : dropped.countP (inWindow a p.invocationIntervalMs) = 0 := by
        refine List.countP_eq_zero.mpr ?_
        intro ts hts hc
        obtain ⟨hc1, hc2⟩ := inWindow_iff.mp hc
        have h5 := hstale ts hts
        omega
      have hr0 : (s.executionTimestamps.takeWhile
          (isOutdated p.invocationIntervalMs now)).countP (inWindow a p.invocationIntervalMs)
          = 0 := by
        refine List.countP_eq_zero.mpr ?_
        intro ts hts hc
        obtain ⟨hc1, hc2⟩ := inWindow_iff.mp hc
        have h5 := (hremStale ts hts).2
        omega
      have hkc : (deleteOutdatedExecutionTimestamps p.invocationIntervalMs now
          s.executionTimestamps).countP (inWindow a p.invocationIntervalMs) ≤
          (deleteOutdatedExecutionTimestamps p.invocationIntervalMs now
            s.executionTimestamps).length :=
        List.countP_le_length _
      have hrep : (List.replicate batch now).countP (inWindow a p.invocationIntervalMs)
          = batch := by
        rw [countP_replicate_eq, if_pos hwin]
      rw [hsplit, ← hk]
      simp only [List.countP_append, hd0, hr0, hrep]
      omega
    · have hrep : (List.replicate batch now).countP (inWindow a p.invocationIntervalMs)
          = 0 := by
        rw [countP_replicate_eq, if_neg hwin]
      have h6 := h3 a
      unfold startsInWindow at h6
      rw [List.countP_append, hrep]
      omega

/-- The ring invariant is preserved by a scheduling tick at any time not
before the current one. -/
theorem ringInv_executeNextTasks (p : TCQParams) (s : TCQState) (now : Nat)
    (hnow : s.time ≤ now) (h : RingInv p s) :
    RingInv p (executeNextTasks p s now) :=
  ringInv_push p s now _ _ _ hnow h (Nat.min_le_left _ _)

/-- The ring invariant is preserved by every trace event. -/
theorem ringInv_stepTCQ (p : TCQParams) (s : TCQState) (e : TCQEvent)
    (h : RingInv p s) : RingInv p (stepTCQ p s e) := by
  cases e with
  | add => exact h
  | taskComplete => exact h
  | tick d => exact ringInv_executeNextTasks p s (s.time + d) (Nat.le_add_right _ _) h

/-- The ring invariant is preserved by every trace. -/
theorem ringInv_runTCQ (p : TCQParams) (s : TCQState) (evts : List TCQEvent)
    (h : RingInv p s) : RingInv p (runTCQ p s evts) := by
  induction evts generalizing s with
  | nil => exact h
  | cons e rest ih => exact ih (stepTCQ p s e) (ringInv_stepTCQ p s e h)

/-- A freshly constructed queue satisfies the ring invariant. -/
theorem ringInv_init (p : TCQParams) (t0 : Nat) : RingInv p (initTCQState t0) :=
  ⟨by simp [initTCQState], ⟨[], by simp [initTCQState], by simp⟩,
    fun _ => by simp [initTCQState, startsInWindow]⟩

/-- Claim C1: for every ThrottledConcurrentQueue constructed with parameters
(maxInvocationsPerInterval = R, invocationIntervalMs = W, maxConcurrency = C)
and for every execution trace of add, scheduling-tick and task-completion
events, in every sliding time window of length W the number of task starts is
at most R. -/
theorem tcq_rate_bound (p : TCQParams) (t0 : Nat) (evts : List TCQEvent) (a : Nat) :
    startsInWindow a p.invocationIntervalMs (runTCQ p (initTCQState t0) evts).starts ≤
      p.maxInvocationsPerInterval :=
  (ringInv_runTCQ p (initTCQState t0) evts (ringInv_init p t0)).2.2 a

/-- Claim C6 (code evaluated at the failing input): with invocationIntervalMs
= 1000, a ring whose oldest execution timestamp is 100, remaining concurrency
quota, and a tick ending at now = 150 with a non-empty task queue, the code
schedules its single pending wake at delay `now - oldest + interval` = 1050,
not at `(oldest + interval) - now` = 950 as the claim (and the method's own
documentation comment) state. -/
theorem nextPossibleExecution_delay_at_failing_input :
    nextPossibleExecution ⟨2, 1000, 1⟩
        { time := 150, taskQueue := 3, executionTimestamps := [100], concurrency := 0,
          starts := [100] } 150 = some 1050 ∧
    ((100 : Int) + 1000 - 150 = 950) ∧ ((1050 : Int) ≠ 950) := by
  refine ⟨rfl, by decide, by decide⟩

/-- Claim C2: in the transaction executor, a successful submission while a
nonce is in use increments the nonce by exactly one and submits carrying that
nonce; a failed submission leaves the executor state exactly as
maybeUpdateNonce left it, and the next transaction, executed while the nonce
is known and not stale, submits carrying that same nonce; and the nonce is
refetched from the chain only when it is unknown or stale
(src/dist/TxExecutor.js, execute and maybeUpdateNonce). -/
theorem txexecutor_nonce_discipline (s : ExecutorState) (now : Nat)
    (fetchedNonce : Option Nat) (t : Nat) (w : WaitOutcome) (n : Nat) :
    ((maybeUpdateNonce s now fetchedNonce).nonce = some n →
      (execute s now fetchedNonce (.submitted t w)).state.nonce = some (n + 1) ∧
      (execute s now fetchedNonce (.submitted t w)).submittedNonce = some (some n)) ∧
    ((execute s now fetchedNonce .submitFailed).state = maybeUpdateNonce s now fetchedNonce) ∧
    (∀ now2 fetched2 t2 w2,
      (execute s now fetchedNonce .submitFailed).state.nonce ≠ none →
      nonceIsStale (execute s now fetchedNonce .submitFailed).state now2 = false →
      (execute ((execute s now fetchedNonce .submitFailed).state) now2 fetched2
          (.submitted t2 w2)).submittedNonce =
        some ((execute s now fetchedNonce .submitFailed).state.nonce)) ∧
    (s.nonce ≠ none → nonceIsStale s now = false → maybeUpdateNonce s now fetchedNonce = s) := by
  refine ⟨?_, rfl, ?_, ?_⟩
  · intro hn
    simp [execute, hn]
  · intro now2 fetched2 t2 w2 hnn hst
    have e1 : (execute s now fetchedNonce .submitFailed).state =
        maybeUpdateNonce s now fetchedNonce := rfl
    rw [e1] at hnn hst ⊢
    generalize maybeUpdateNonce s now fetchedNonce = s1 at hnn hst ⊢
    simp [execute, maybeUpdateNonce, hnn, hst]
  · intro hnn hst
    simp [maybeUpdateNonce, hnn, hst]

/-- Witness for Claim C2 at a concrete input: nonce 42 known and fresh
(2000 ms since the last submission), chain nonce 7 available: a successful
submission advances the nonce to 43, and no refetch occurs. -/
theorem txexecutor_nonce_discipline_witness :
    (execute ⟨some 42, 1000000⟩ 1002000 (some 7)
        (.submitted 1002500 (.confirmed 1))).state.nonce = some 43 ∧
    maybeUpdateNonce ⟨some 42, 1000000⟩ 1002000 (some 7) = ⟨some 42, 1000000⟩ := by
  have h := txexecutor_nonce_discipline ⟨some 42, 1000000⟩ 1002000 (some 7) 1002500
    (.confirmed 1) 42
  exact ⟨(h.1 (by decide)).1, h.2.2.2 (by decide) (by decide)⟩

/-- Claim C4: each of the four queued-transaction callbacks fires at most
once per run of execute; the two error callbacks fire exactly once in total
on a failed run (a submission failure or a receipt-wait failure) and never on
a successful run; and when onSubmissionError fires (the submitted promise
rejects), neither settler of the confirmed promise (onTransactionReceipt or
onReceiptError) ever fires, so the confirmed promise never settles
(src/dist/TxExecutor.js, execute and queueTransaction). -/
theorem tx_callbacks_at_most_once (s : ExecutorState) (now : Nat)
    (fetchedNonce : Option Nat) (outcome : TxOutcome) :
    (∀ c, (execute s now fetchedNonce outcome).fired.count c ≤ 1) ∧
    ((execute s now fetchedNonce outcome).fired.count .onSubmissionError +
        (execute s now fetchedNonce outcome).fired.count .onReceiptError =
      (match outcome with
       | .submitFailed => 1
       | .submitted _ .waitFailed => 1
       | .submitted _ (.confirmed _) => 0)) ∧
    (.onSubmissionError ∈ (execute s now fetchedNonce outcome).fired →
      .onTransactionReceipt ∉ (execute s now fetchedNonce outcome).fired ∧
      .onReceiptError ∉ (execute s now fetchedNonce outcome).fired) := by
  match outcome with
  | .submitFailed =>
    refine ⟨fun c => ?_, by simp [execute], by simp [execute]⟩
    cases c <;> simp [execute]
  | .submitted t (.confirmed st) =>
    refine ⟨fun c => ?_, by simp [execute], by simp [execute]⟩
    cases c <;> simp [execute]
  | .submitted t .waitFailed =>
    refine ⟨fun c => ?_, by simp [execute], by simp [execute]⟩
    cases c <;> simp [execute]

/-- Witness for Claim C4 at a concrete input: on a submission failure the
confirmed promise is abandoned, neither of its settlers fires. -/
theorem tx_callbacks_at_most_once_witness :
    TxCallback.onTransactionReceipt ∉ (execute ⟨none, 0⟩ 0 none .submitFailed).fired ∧
    TxCallback.onReceiptError ∉ (execute ⟨none, 0⟩ 0 none .submitFailed).fired :=
  (tx_callbacks_at_most_once ⟨none, 0⟩ 0 none .submitFailed).2.2 (by decide)

/-- Claim C10: when the caller-supplied overrides carry no gasPrice,
queueTransaction writes the automatically selected gas price (in wei) into
the overrides object carried by the enqueued request, leaving gasLimit
untouched; when gasPrice is already set, the overrides object is unchanged
(src/dist/TxExecutor.js, queueTransaction). -/
theorem queueTransaction_overrides_mutation (actionId methodName : String)
    (overrides : TxOverrides) (autoGasPriceWei : Int) :
    (overrides.gasPrice = none →
      (queueTransaction actionId methodName overrides autoGasPriceWei).overrides =
        { gasPrice := some autoGasPriceWei, gasLimit := overrides.gasLimit }) ∧
    (overrides.gasPrice ≠ none →
      (queueTransaction actionId methodName overrides autoGasPriceWei).overrides =
        overrides) := by
  constructor
  · intro h
    simp [queueTransaction, resolveGasPrice, h]
  · intro h
    simp [queueTransaction, resolveGasPrice, h]

/-- Witness for Claim C10 at a concrete input. -/
theorem queueTransaction_overrides_mutation_witness :
    (queueTransaction "act1" "move" ⟨none, some 2000000⟩ 5000000000).overrides =
      ⟨some 5000000000, some 2000000⟩ :=
  (queueTransaction_overrides_mutation "act1" "move" ⟨none, some 2000000⟩ 5000000000).1 rfl

/-- Claim C3 (code evaluated at the failing input): makeCall with maxRetries
= 2 over a first failing and then succeeding view call resolves with the
first successful value and runs two attempts, yet the number of tasks added
to the throttled queue is zero: the attempt body awaits the view function
directly and never enqueues, contradicting the claim (and the class's own
documentation) that each attempt is a fresh task on the throttled queue
(src/dist/ContractCaller.js, makeCall). -/
theorem makeCall_bypasses_queue :
    (makeCall (fun i => if i = 0 then Except.error "rpc error" else Except.ok 7) 2
        ⟨0, 0⟩).2 = Except.ok 7 ∧
    (makeCall (fun i => if i = 0 then Except.error "rpc error" else Except.ok 7) 2
        ⟨0, 0⟩).1.totalCalls = 2 ∧
    (makeCall (fun i => if i = 0 then Except.error "rpc error" else Except.ok 7) 2
        ⟨0, 0⟩).1.queueAdds = 0 :=
  ⟨rfl, rfl, rfl⟩

/-- The clamp of cleanGasPrices lands in the interval [1, maxGwei] whenever
1 ≤ maxGwei. -/
theorem clampGwei_bounds (maxGwei x : ℚ) (hM : 1 ≤ maxGwei) :
    1 ≤ clampGwei maxGwei x ∧ clampGwei maxGwei x ≤ maxGwei :=
  ⟨le_max_left _ _, max_le hM (min_le_left _ _)⟩

/-- Claim C7: getAutoGasPrices never raises (it is a total function); on any
network or parse failure it returns the default prices; on success each of
slow, average, fast is independently replaced by its default when missing or
not a number and then clamped, so each field of a successfully fetched result
lies in [1, MAX_AUTO_GAS_PRICE_GWEI] (src/unnamed/part_000). -/
theorem getAutoGasPrices_spec (defaults : GasPrices) (maxGwei : ℚ) (hM : 1 ≤ maxGwei) :
    getAutoGasPrices defaults maxGwei none = defaults ∧
    ∀ raw : RawGasPrices,
      ((getAutoGasPrices defaults maxGwei (some raw)).slow =
          clampGwei maxGwei (substituteField raw.slow defaults.slow) ∧
        (getAutoGasPrices defaults maxGwei (some raw)).average =
          clampGwei maxGwei (substituteField raw.average defaults.average) ∧
        (getAutoGasPrices defaults maxGwei (some raw)).fast =
          clampGwei maxGwei (substituteField raw.fast defaults.fast)) ∧
      ((1 ≤ (getAutoGasPrices defaults maxGwei (some raw)).slow ∧
          (getAutoGasPrices defaults maxGwei (some raw)).slow ≤ maxGwei) ∧
        (1 ≤ (getAutoGasPrices defaults maxGwei (some raw)).average ∧
          (getAutoGasPrices defaults maxGwei (some raw)).average ≤ maxGwei) ∧
        (1 ≤ (getAutoGasPrices defaults maxGwei (some raw)).fast ∧
          (getAutoGasPrices defaults maxGwei (some raw)).fast ≤ maxGwei)) := by
  refine ⟨rfl, fun raw => ⟨⟨rfl, rfl, rfl⟩, ?_, ?_, ?_⟩⟩ <;>
    exact clampGwei_bounds maxGwei _ hM

/-- Witness for Claim C7 at a concrete input: defaults (1, 5, 10), ceiling
100, oracle response with a non-numeric slow field, average 500000 and fast
7; the cleaned average lies in [1, 100]. -/
theorem getAutoGasPrices_spec_witness :
    1 ≤ (getAutoGasPrices ⟨1, 5, 10⟩ 100 (some ⟨.other, .num 500000, .num 7⟩)).average ∧
    (getAutoGasPrices ⟨1, 5, 10⟩ 100 (some ⟨.other, .num 500000, .num 7⟩)).average ≤ 100 :=
  (((getAutoGasPrices_spec ⟨1, 5, 10⟩ 100 (by norm_num)).2
    ⟨.other, .num 500000, .num 7⟩).2).2.1

/-- Claim C8 counterexample: at gas prices (slow 1, average 2, fast 3) and
setting "Infinity", parseFloat yields positive infinity, which is not NaN, so
the code returns it; the claim as stated demands the average price because
the parsed value is not finite. -/
theorem getAutoGasPriceGwei_counterexample :
    ¬ C8ClaimStatement ⟨1, 2, 3⟩ "Infinity" := by
  unfold C8ClaimStatement
  decide

/-- Claim C8 amended: getAutoGasPriceGwei returns slow, average or fast when
the setting is the string Slow, Average or Fast respectively; otherwise it
returns parseFloat of the setting exactly when that value is not NaN
(including positive and negative infinity); only when the parse yields NaN
does it fall back to the average price (src/dist/EthConnection.js,
getAutoGasPriceGwei; src/dist/Network.js, getGasSettingGwei). -/
theorem getAutoGasPriceGwei_spec (gasPrices : GasPrices) (setting : String) :
    getAutoGasPriceGwei gasPrices setting =
      if setting = "Slow" then JSNum.finite gasPrices.slow
      else if setting = "Average" then JSNum.finite gasPrices.average
      else if setting = "Fast" then JSNum.finite gasPrices.fast
      else if parseFloat setting = JSNum.nan then JSNum.finite gasPrices.average
      else parseFloat setting := by
  unfold getAutoGasPriceGwei getGasSettingGwei
  split_ifs <;> simp_all

/-- Chunked runs of the bulk getter succeed and flatten in index order when
every chunk's first batch is non-empty. -/
theorem runBulkChunks_total (getterFn : Nat → Nat → List α) (total querySize : Nat)
    (indices : List Nat)
    (hne : ∀ i ∈ indices, getterFn (i * querySize) (min ((i + 1) * querySize) total) ≠ []) :
    ∀ loadedSoFar, ∃ calls,
      runBulkChunks getterFn total querySize loadedSoFar indices =
        some ((indices.map
          (fun i => getterFn (i * querySize) (min ((i + 1) * querySize) total))).flatten,
          calls) := by
  induction indices with
  | nil => exact fun _ => ⟨[], rfl⟩
  | cons i rest ih =>
    intro loadedSoFar
    obtain ⟨calls, hc⟩ := ih (fun j hj => hne j (List.mem_cons_of_mem _ hj))
      (loadedSoFar + (min ((i + 1) * querySize) total - i * querySize))
    have hne0 : (getterFn (i * querySize) (min ((i + 1) * querySize) total)).isEmpty
        = false := by
      simp [List.isEmpty_iff, hne i (List.mem_cons_self _ _)]
    refine ⟨(((loadedSoFar + (min ((i + 1) * querySize) total - i * querySize) : Nat) : ℚ)
        / (total : ℚ)) :: calls, ?_⟩
    simp [runBulkChunks, hne0, hc]

/-- Claim C9: for every total, positive querySize and getter that returns a
non-empty array on every chunk, aggregateBulkGetter returns the concatenation
in chunk-index order of the getter applied to the ceil(total/querySize)
half-open chunks, and the onProgress call list is non-empty with final value
exactly 1 (src/dist/Network.js, aggregateBulkGetter). -/
theorem aggregateBulkGetter_spec (total querySize : Nat) (getterFn : Nat → Nat → List α)
    (hq : 0 < querySize)
    (hne : ∀ i, i < numChunks total querySize →
      getterFn (i * querySize) (min ((i + 1) * querySize) total) ≠ []) :
    ∃ calls : List ℚ,
      aggregateBulkGetter total querySize getterFn =
        some (((List.range (numChunks total querySize)).map
            (fun i => getterFn (i * querySize) (min ((i + 1) * querySize) total))).flatten,
          calls) ∧
      calls ≠ [] ∧ calls.getLast? = some 1 := by
  obtain ⟨calls, hc⟩ := runBulkChunks_total getterFn total querySize
    (List.range (numChunks total querySize))
    (fun i hi => hne i (List.mem_range.mp hi)) 0
  refine ⟨calls ++ [1], ?_, by simp, by simp⟩
  simp [aggregateBulkGetter, hc]

/-- Witness for Claim C9 at a concrete input: total 5, querySize 2, getter
returning the integers of the requested half-open range. -/
theorem aggregateBulkGetter_spec_witness :
    ∃ calls : List ℚ,
      aggregateBulkGetter 5 2 (fun s e => List.range' s (e - s)) =
        some (((List.range (numChunks 5 2)).map
            (fun i => (fun s e => List.range' s (e - s)) (i * 2) (min ((i + 1) * 2) 5))).flatten,
          calls) ∧
      calls ≠ [] ∧ calls.getLast? = some 1 :=
  aggregateBulkGetter_spec 5 2 (fun s e => List.range' s (e - s)) (by decide) (by decide)

/-- Claim C5 (code evaluated at the failing input): start from a connection
on provider URL old with one contract at address 0xA loaded by a loader that
records the provider it is invoked with; after setRpcUrl to URL new, the
current provider is the new one but the registered contract handle was
produced against the old provider, because setRpcUrl reloads the contracts
before replacing the provider reference. -/
theorem setRpcUrl_reloads_against_old_provider :
    (setRpcUrl (loadContract ⟨"old", none, [], [], []⟩ "0xA"
        (fun a pUrl k => ⟨a, pUrl, k⟩)).1 "new").providerUrl = "new" ∧
    mapGet (setRpcUrl (loadContract ⟨"old", none, [], [], []⟩ "0xA"
        (fun a pUrl k => ⟨a, pUrl, k⟩)).1 "new").contracts "0xA" =
      some ⟨"0xA", "old", none⟩ ∧
    ((⟨"0xA", "old", none⟩ : EthContract) ≠ ⟨"0xA", "new", none⟩) := by
  refine ⟨rfl, rfl, by decide⟩
